import Mathlib

/-!
# Verification of the fixed-point currency module of CodaClient.py

This file shallowly embeds the `Currency` class of `CodaClient.py`
(lines 12-149) and proves the claimed properties of the repository's
specification against it.

Modelling conventions:
* Python integers are `Int` (arbitrary precision in both languages).
* Python strings are `String` / `List Char`.
* The private attribute `__nanocodas` is an `Option Int`: every assignment
  in `__init__` stores either an `int` or — through the fall-through in
  `__nanocodas_from_string` when the string holds two or more periods —
  Python's implicit `None`.
* Exceptions become an explicit error type `PyErr`.  Each distinct `raise`
  site of the source gets its own constructor carrying the raised message,
  so the spec's error taxonomy (`FormatError` / `TypeError` / `Underflow` /
  `InvalidArgument`) is decidable on errors.
* A Python `float` reaches `__init__` only through `str(value)` (line 88),
  so a float argument is modelled by the string the host's `str` produces
  for it.
* `Currency` defines no `__eq__`, so `==` between two instances is object
  identity.  Object identity is modelled by an allocation id `objId`;
  distinct allocations carry distinct ids.
-/

/-- Is `c` one of the ASCII digit characters 0 to 9? -/
def isAsciiDigit (c : Char) : Bool := '0' ≤ c && c ≤ '9'

/-- Numeric value of an ASCII digit character. -/
def charDigit (c : Char) : Nat := c.toNat - '0'.toNat

/-- The integer denoted by a big-endian list of decimal digit characters:
the value Python's `int()` computes on a plain digit string. -/
def digitsVal (l : List Char) : Nat := l.foldl (fun a c => 10 * a + charDigit c) 0

/-- Python `s.split` on a period (`Currency.__nanocodas_from_string`,
line 40): splits on every occurrence, keeping empty segments, and always
returns at least one segment. -/
def splitDot : List Char → List (List Char)
  | [] => [[]]
  | c :: rest =>
    if c = '.' then [] :: splitDot rest
    else
      match splitDot rest with
      | [] => [[c]]
      | seg :: segs => (c :: seg) :: segs

/-- Python `int(s)` in base 10, on the characters of `s`: an optional sign
followed by a nonempty run of digits parses to the denoted integer, anything
else raises `ValueError` (modelled as `none`).  Python additionally strips
surrounding whitespace and allows underscores between digits; no string this
development feeds to `int()` contains either. -/
def pyIntParseL (l : List Char) : Option Int :=
  match l with
  | [] => none
  | c :: rest =>
    if c = '-' then
      if rest ≠ [] ∧ rest.all isAsciiDigit then some (-(digitsVal rest : Int)) else none
    else if c = '+' then
      if rest ≠ [] ∧ rest.all isAsciiDigit then some ((digitsVal rest : Int)) else none
    else if (c :: rest).all isAsciiDigit then some ((digitsVal (c :: rest) : Int)) else none

/-- Decimal digit characters of `n`, most significant first, computed with
explicit fuel so that the definition is structurally recursive (`fuel ≥ n`
is always enough, since `n` has no more than `n` digits for `n ≥ 1`). -/
def natDigitsCore : Nat → Nat → List Char
  | 0, _ => []
  | f + 1, n => if n = 0 then [] else natDigitsCore f (n / 10) ++ [Nat.digitChar (n % 10)]

/-- Python `str(n)` for a nonnegative integer: its decimal digit string,
with no sign, no leading zeros (except for `"0"` itself), never scientific
notation. -/
def pyNatStr (n : Nat) : String := if n = 0 then "0" else ⟨natDigitsCore n n⟩

/-- Python `str(n)` for an arbitrary integer. -/
def pyIntStr (n : Int) : String := if n < 0 then "-" ++ pyNatStr (-n).toNat else pyNatStr n.toNat

/-- Python `str` applied to the `__nanocodas` attribute, which is an int or
(after the fall-through bug) `None`. -/
def pyValStr : Option Int → String
  | none => "None"
  | some n => pyIntStr n

/-- The errors the currency module can raise.  Each constructor is one
`raise` site (or host-builtin failure) of the source, carrying the message
the source raises with. -/
inductive PyErr where
  /-- line 48: `raise Exception` with an invalid-coda-currency-format message. -/
  | formatException (msg : String)
  /-- lines 92, 97, 131, 141, 149: `raise Exception` with a cannot-construct /
  cannot-add / cannot-subtract / cannot-multiply message. -/
  | typeException (msg : String)
  /-- lines 62, 64: `raise Exception` with an invalid-call-to-Currency.random
  message. -/
  | invalidArgumentException (msg : String)
  /-- line 139: `raise CurrencyUnderflow()` — a distinct exception class with
  no message payload. -/
  | currencyUnderflow
  /-- host `ValueError` raised by `int()` on a malformed literal. -/
  | valueError (msg : String)
  /-- host `TypeError`, e.g. comparing `None` with an int at line 63. -/
  | builtinTypeError (msg : String)
deriving DecidableEq, Repr

/-- The spec's `FormatError` class of errors. -/
def PyErr.isFormatErrorClass : PyErr → Bool
  | .formatException _ => true
  | _ => false

/-- The spec's `TypeError` class of errors. -/
def PyErr.isTypeErrorClass : PyErr → Bool
  | .typeException _ => true
  | .builtinTypeError _ => true
  | _ => false

/-- The spec's `InvalidArgument` class of errors. -/
def PyErr.isInvalidArgumentClass : PyErr → Bool
  | .invalidArgumentException _ => true
  | _ => false

/-- The spec's `Underflow` class of errors. -/
def PyErr.isUnderflowClass : PyErr → Bool
  | .currencyUnderflow => true
  | _ => false

/-- The `CurrencyFormat` enum (lines 12-20). -/
inductive CurrencyFormat where
  | WHOLE
  | NANO
deriving DecidableEq, Repr

/-- A Python value passed to `Currency.__init__`.  A float is modelled by
the string `str(value)` produces for it — the only way `__init__` consumes a
float (line 88); `other` is a value of any type besides int, float and str,
carrying that type's printed name. -/
inductive PyValue where
  | int (n : Int)
  | float (reprStr : String)
  | str (s : String)
  | other (typeName : String)
deriving DecidableEq, Repr

/-- Python `str(type(value))` as interpolated by the `%s` in the error
messages of `__init__`. -/
def pyTypeName : PyValue → String
  | .int _ => "<class 'int'>"
  | .float _ => "<class 'float'>"
  | .str _ => "<class 'str'>"
  | .other ty => ty

/-- `Currency.__nanocodas_from_int` (lines 34-36). -/
def nanocodas_from_int (n : Int) : Int := n * 1000000000

/-- `Currency.__nanocodas_from_string` (lines 38-48).  One segment: the
whole string goes to `int()`.  Two segments `l` and `r`: if `r` has at most
9 characters, `int(l + r + '0' * (9 - len(r)))`, else the format exception.
Three or more segments: no branch of the `if`/`elif` matches and Python
returns `None`. -/
def nanocodas_from_string (s : String) : Except PyErr (Option Int) :=
  match splitDot s.data with
  | [whole] =>
    match pyIntParseL whole with
    | some n => .ok (some n)
    | none => .error (.valueError ("invalid literal for int() with base 10: " ++ String.mk whole))
  | [l, r] =>
    if r.length ≤ 9 then
      match pyIntParseL (l ++ r ++ List.replicate (9 - r.length) '0') with
      | some n => .ok (some n)
      | none => .error (.valueError ("invalid literal for int() with base 10: "
          ++ String.mk (l ++ r ++ List.replicate (9 - r.length) '0')))
    else .error (.formatException ("invalid coda currency format: " ++ s))
  | _ => .ok none

/-- `Currency.__init__` (lines 71-99), returning the value stored into
`self.__nanocodas` or the raised error. -/
def Currency_init (value : PyValue) (format : CurrencyFormat) : Except PyErr (Option Int) :=
  match format with
  | .WHOLE =>
    match value with
    | .int n => .ok (some (nanocodas_from_int n))
    | .float reprStr => nanocodas_from_string reprStr
    | .str s => nanocodas_from_string s
    | .other _ => .error (.typeException ("cannot construct whole Currency from "
        ++ pyTypeName value))
  | .NANO =>
    match value with
    | .int n => .ok (some n)
    | _ => .error (.typeException ("cannot construct nano Currency from " ++ pyTypeName value))

/-- The string-slicing step of `Currency.decimal_format` (lines 107-111) on
the characters of `str(self.__nanocodas)`: `s[:-9] + '.' + s[-9:]` when
`len(s) > 9`, else `'0.' + '0' * (9 - len(s)) + s`. -/
def decimalFormatL (s : List Char) : List Char :=
  if s.length > 9 then s.take (s.length - 9) ++ '.' :: s.drop (s.length - 9)
  else '0' :: '.' :: (List.replicate (9 - s.length) '0' ++ s)

/-- `Currency.decimal_format` (lines 101-111). -/
def decimal_format (nanocodas : Option Int) : String := ⟨decimalFormatL (pyValStr nanocodas).data⟩

/-- The rendering rule exactly as the spec's words state it (for comparing
the implementation against the spec's description): on the decimal digit
string of `nanoUnits`, insert a period 9 digits from the end when the string
is longer than 9 digits, otherwise emit `0.` followed by the string
left-padded with zeros to 9 digits. -/
def specToDecimalString (digits : List Char) : List Char :=
  if digits.length > 9 then
    digits.take (digits.length - 9) ++ '.' :: digits.drop (digits.length - 9)
  else '0' :: '.' :: (List.replicate (9 - digits.length) '0' ++ digits)

/-- The right operand of `Currency.__sub__`: a Currency instance (with its
`__nanocodas` value) or a non-Currency value of the named type. -/
inductive PyOperand where
  | currencyVal (nanocodas : Option Int)
  | other (typeName : String)
deriving DecidableEq, Repr

/-- `Currency.__sub__` (lines 133-141): `new_value = self.nanocodas() -
other.nanocodas()`; nonnegative results are returned as a NANO Currency,
negative ones raise `CurrencyUnderflow()`; a non-Currency operand raises the
cannot-subtract exception. -/
def Currency_sub (self : Option Int) (other : PyOperand) : Except PyErr (Option Int) :=
  match other with
  | .currencyVal v =>
    match self, v with
    | some a, some b =>
      if a - b ≥ 0 then .ok (some (a - b)) else .error .currencyUnderflow
    | _, _ => .error (.builtinTypeError "unsupported operand types for -: NoneType")
  | .other ty => .error (.typeException ("cannot subtract Currency and " ++ ty))

/-- A Currency instance as a Python object: its identity (allocation id) and
its `__nanocodas` attribute.  `Currency` defines no `__eq__`, so `==` between
instances falls back to `object.__eq__`, which is identity; distinct
allocations have distinct `objId`. -/
structure CurrencyObj where
  objId : Nat
  nanocodas : Option Int
deriving DecidableEq, Repr

/-- Python `==` on two Currency instances: object identity. -/
def currencyEq (a b : CurrencyObj) : Bool := a.objId == b.objId

/-- Allocation of a `Currency(value, format)` object at a fresh id. -/
def mkCurrency (objId : Nat) (value : PyValue) (format : CurrencyFormat) :
    Except PyErr CurrencyObj :=
  (Currency_init value format).map fun v => ⟨objId, v⟩

/-- An argument of `Currency.random`: a Currency instance or a value of some
other type. -/
inductive RandomArg where
  | currency (c : CurrencyObj)
  | other (typeName : String)
deriving DecidableEq, Repr

/-- What a call to `Currency.random` produced: the returned object and
whether `random.randint` was invoked along the way. -/
structure RandomOutcome where
  result : CurrencyObj
  invokedRandint : Bool
deriving DecidableEq, Repr

/-- `Currency.random` (lines 50-69).  `freshId` is the id of the object the
call allocates through `lower_bound + Currency(delta, format=NANO)`; `draw`
is the value `random.randint(0, bound_range)` returns if it is invoked
(`randint(a, b)` draws from the closed interval `[a, b]`).  The `==` of
line 65 is object identity, since `Currency` defines no `__eq__`. -/
def Currency_random (lower upper : RandomArg) (freshId : Nat) (draw : Int) :
    Except PyErr RandomOutcome :=
  match lower, upper with
  | .currency lo, .currency hi =>
    match lo.nanocodas, hi.nanocodas with
    | some l, some u =>
      if ¬ (u ≥ l) then
        .error (.invalidArgumentException
          "invalid call to Currency.random: upper_bound is not greater than lower_bound")
      else if currencyEq lo hi then .ok ⟨lo, false⟩
      else .ok ⟨⟨freshId, some (l + draw)⟩, true⟩
    | _, _ => .error (.builtinTypeError "unsupported operand types for >=: NoneType")
  | _, _ =>
    .error (.invalidArgumentException
      "invalid call to Currency.random: lower and upper bound must be instances of Currency")

/-! ## Facts about digit strings -/

theorem digitsVal_go (l : List Char) (init : Nat) :
    l.foldl (fun a c => 10 * a + charDigit c) init
      = init * 10 ^ l.length + digitsVal l := by
  induction l generalizing init with
  | nil => simp [digitsVal]
  | cons c cs ih =>
    have h1 : digitsVal (c :: cs) = charDigit c * 10 ^ cs.length + digitsVal cs := by
      show List.foldl (fun a c => 10 * a + charDigit c) (10 * 0 + charDigit c) cs
        = charDigit c * 10 ^ cs.length + digitsVal cs
      rw [ih (10 * 0 + charDigit c)]
      ring
    simp only [List.foldl_cons, List.length_cons]
    rw [ih (10 * init + charDigit c), h1]
    ring

theorem digitsVal_append (a b : List Char) :
    digitsVal (a ++ b) = digitsVal a * 10 ^ b.length + digitsVal b := by
  unfold digitsVal
  rw [List.foldl_append]
  exact digitsVal_go b _

theorem digitsVal_replicate_zero (k : Nat) :
    digitsVal (List.replicate k '0') = 0 := by
  induction k with
  | zero => rfl
  | succ k ih =>
    show digitsVal ('0' :: List.replicate k '0') = 0
    unfold digitsVal at *
    simp only [List.foldl_cons]
    have hc : charDigit '0' = 0 := rfl
    rw [hc]
    simpa using ih

theorem digitsVal_zeros_append (k : Nat) (t : List Char) :
    digitsVal (List.replicate k '0' ++ t) = digitsVal t := by
  rw [digitsVal_append, digitsVal_replicate_zero]
  simp

theorem no_dot_of_all_digits {l : List Char} (h : l.all isAsciiDigit = true) : '.' ∉ l := by
  intro m
  have hd := List.all_eq_true.mp h _ m
  exact absurd hd (by decide)

/-! ## Facts about `splitDot` -/

theorem splitDot_no_dot {l : List Char} (h : '.' ∉ l) : splitDot l = [l] := by
  induction l with
  | nil => rfl
  | cons c cs ih =>
    have hc : c ≠ '.' := fun e => h (by simp [e])
    have hcs : '.' ∉ cs := fun m => h (List.mem_cons_of_mem _ m)
    unfold splitDot
    rw [if_neg hc, ih hcs]

theorem splitDot_append_of_no_dot {a : List Char} (ha : '.' ∉ a) {l : List Char}
    {s : List Char} {ss : List (List Char)} (h : splitDot l = s :: ss) :
    splitDot (a ++ l) = (a ++ s) :: ss := by
  induction a with
  | nil => simpa using h
  | cons c cs ih =>
    have hc : c ≠ '.' := fun e => ha (by simp [e])
    have hcs : '.' ∉ cs := fun m => ha (List.mem_cons_of_mem _ m)
    have hrec := ih hcs
    show splitDot (c :: (cs ++ l)) = ((c :: cs) ++ s) :: ss
    unfold splitDot
    rw [if_neg hc, hrec]
    rfl

theorem splitDot_two {L R : List Char} (hL : '.' ∉ L) (hR : '.' ∉ R) :
    splitDot (L ++ '.' :: R) = [L, R] := by
  have h1 : splitDot ('.' :: R) = [] :: splitDot R := rfl
  rw [splitDot_no_dot hR] at h1
  have := splitDot_append_of_no_dot hL h1
  simpa using this

/-! ## Facts about `pyIntParseL` -/

theorem pyIntParseL_digits {l : List Char} (hne : l ≠ [])
    (hd : l.all isAsciiDigit = true) : pyIntParseL l = some ((digitsVal l : Nat) : Int) := by
  match l, hne with
  | c :: rest, _ =>
    have hc : isAsciiDigit c = true := List.all_eq_true.mp hd _ (by simp)
    have hminus : c ≠ '-' := by
      intro e
      rw [e] at hc
      exact absurd hc (by decide)
    have hplus : c ≠ '+' := by
      intro e
      rw [e] at hc
      exact absurd hc (by decide)
    simp [pyIntParseL, hminus, hplus, hd]

/-! ## Facts about `natDigitsCore` and `pyNatStr` -/

theorem digitChar_isDigit {d : Nat} (h : d < 10) : isAsciiDigit (Nat.digitChar d) = true := by
  interval_cases d <;> decide

theorem charDigit_digitChar {d : Nat} (h : d < 10) : charDigit (Nat.digitChar d) = d := by
  interval_cases d <;> decide

theorem natDigitsCore_zero (f : Nat) : natDigitsCore f 0 = [] := by
  cases f <;> simp [natDigitsCore]

theorem natDigitsCore_all_digits :
    ∀ f n, n ≤ f → (natDigitsCore f n).all isAsciiDigit = true := by
  intro f
  induction f with
  | zero =>
    intro n h
    have : n = 0 := Nat.le_zero.mp h
    subst this
    rfl
  | succ f ih =>
    intro n h
    by_cases h0 : n = 0
    · subst h0
      rfl
    · have hdiv : n / 10 ≤ f := by
        have h1 : n / 10 < n := Nat.div_lt_self (Nat.pos_of_ne_zero h0) (by norm_num)
        omega
      have hmod : n % 10 < 10 := Nat.mod_lt _ (by norm_num)
      show ((if n = 0 then [] else natDigitsCore f (n / 10)
        ++ [Nat.digitChar (n % 10)]).all isAsciiDigit) = true
      rw [if_neg h0]
      rw [List.all_append]
      rw [ih (n / 10) hdiv]
      simpa using digitChar_isDigit hmod

theorem natDigitsCore_val : ∀ f n, n ≤ f → digitsVal (natDigitsCore f n) = n := by
  intro f
  induction f with
  | zero =>
    intro n h
    have : n = 0 := Nat.le_zero.mp h
    subst this
    rfl
  | succ f ih =>
    intro n h
    by_cases h0 : n = 0
    · subst h0
      rfl
    · have hdiv : n / 10 ≤ f := by
        have h1 : n / 10 < n := Nat.div_lt_self (Nat.pos_of_ne_zero h0) (by norm_num)
        omega
      have hmod : n % 10 < 10 := Nat.mod_lt _ (by norm_num)
      show digitsVal (if n = 0 then [] else natDigitsCore f (n / 10)
        ++ [Nat.digitChar (n % 10)]) = n
      rw [if_neg h0, digitsVal_append, ih (n / 10) hdiv]
      have hone : digitsVal [Nat.digitChar (n % 10)] = n % 10 := by
        show 10 * 0 + charDigit (Nat.digitChar (n % 10)) = n % 10
        rw [charDigit_digitChar hmod]
        omega
      rw [hone]
      simp only [List.length_cons, List.length_nil, pow_one, zero_add]
      omega

theorem natDigitsCore_length :
    ∀ f n k, n ≤ f → ((natDigitsCore f n).length ≤ k ↔ n < 10 ^ k) := by
  intro f
  induction f with
  | zero =>
    intro n k h
    have : n = 0 := Nat.le_zero.mp h
    subst this
    have hp : 0 < 10 ^ k := Nat.pos_pow_of_pos k (by omega)
    simp [natDigitsCore, hp]
  | succ f ih =>
    intro n k h
    by_cases h0 : n = 0
    · subst h0
      have hp : 0 < 10 ^ k := Nat.pos_pow_of_pos k (by omega)
      simp [natDigitsCore, hp]
    · have hdiv : n / 10 ≤ f := by
        have h1 : n / 10 < n := Nat.div_lt_self (Nat.pos_of_ne_zero h0) (by norm_num)
        omega
      show (if n = 0 then [] else natDigitsCore f (n / 10)
        ++ [Nat.digitChar (n % 10)]).length ≤ k ↔ n < 10 ^ k
      rw [if_neg h0, List.length_append]
      cases k with
      | zero =>
        simp only [pow_zero]
        constructor
        · intro hk
          simp at hk
        · intro hk
          omega
      | succ k =>
        have hiff := ih (n / 10) k hdiv
        have hstep : n / 10 < 10 ^ k ↔ n < 10 ^ (k + 1) := by
          rw [Nat.div_lt_iff_lt_mul (by norm_num : 0 < 10), pow_succ]
        constructor
        · intro hk
          have : (natDigitsCore f (n / 10)).length ≤ k := by
            simp at hk
            omega
          exact hstep.mp (hiff.mp this)
        · intro hk
          have : (natDigitsCore f (n / 10)).length ≤ k := hiff.mpr (hstep.mpr hk)
          simp
          omega

theorem natDigitsCore_ne_nil {f n : Nat} (h0 : n ≠ 0) (h : n ≤ f) :
    natDigitsCore f n ≠ [] := by
  cases f with
  | zero => omega
  | succ f =>
    show (if n = 0 then [] else natDigitsCore f (n / 10) ++ [Nat.digitChar (n % 10)]) ≠ []
    rw [if_neg h0]
    simp

theorem pyNatStr_data (n : Nat) :
    (pyNatStr n).data = if n = 0 then ['0'] else natDigitsCore n n := by
  unfold pyNatStr
  by_cases h0 : n = 0
  · simp [h0]
  · simp [h0]

theorem pyNatStr_all_digits (n : Nat) : (pyNatStr n).data.all isAsciiDigit = true := by
  rw [pyNatStr_data]
  by_cases h0 : n = 0
  · subst h0
    decide
  · rw [if_neg h0]
    exact natDigitsCore_all_digits n n le_rfl

theorem pyNatStr_val (n : Nat) : digitsVal (pyNatStr n).data = n := by
  rw [pyNatStr_data]
  by_cases h0 : n = 0
  · subst h0
    rfl
  · rw [if_neg h0]
    exact natDigitsCore_val n n le_rfl

theorem pyNatStr_ne_nil (n : Nat) : (pyNatStr n).data ≠ [] := by
  rw [pyNatStr_data]
  by_cases h0 : n = 0
  · simp [h0]
  · rw [if_neg h0]
    exact natDigitsCore_ne_nil h0 le_rfl

theorem pyNatStr_length_le_iff {k : Nat} (hk : 1 ≤ k) (n : Nat) :
    ((pyNatStr n).data.length ≤ k ↔ n < 10 ^ k) := by
  rw [pyNatStr_data]
  by_cases h0 : n = 0
  · subst h0
    rw [if_pos rfl]
    have h1 : 0 < 10 ^ k := Nat.pos_pow_of_pos k (by norm_num)
    have h2 : ([('0' : Char)] : List Char).length ≤ k := by
      simp
      omega
    exact iff_of_true h2 h1
  · rw [if_neg h0]
    exact natDigitsCore_length n n k le_rfl

theorem pyNatStr_no_dot (n : Nat) : '.' ∉ (pyNatStr n).data :=
  no_dot_of_all_digits (pyNatStr_all_digits n)

/-! ## Bridge lemmas: the constructor on digit strings, and the shape of
`decimal_format` output -/

theorem all_digits_replicate_zero (k : Nat) :
    (List.replicate k '0').all isAsciiDigit = true := by
  apply List.all_eq_true.mpr
  intro x hx
  rw [List.eq_of_mem_replicate hx]
  decide

theorem nanocodas_from_string_digits {l : List Char} (hne : l ≠ [])
    (hd : l.all isAsciiDigit = true) :
    nanocodas_from_string ⟨l⟩ = .ok (some ((digitsVal l : Nat) : Int)) := by
  have hdata : (⟨l⟩ : String).data = l := rfl
  have hsplit : splitDot l = [l] := splitDot_no_dot (no_dot_of_all_digits hd)
  have hparse := pyIntParseL_digits hne hd
  unfold nanocodas_from_string
  rw [hdata, hsplit]
  simp [hparse]

theorem nanocodas_from_string_two {L R : List Char} (hL : L.all isAsciiDigit = true)
    (hR : R.all isAsciiDigit = true) (hlen : R.length ≤ 9) :
    nanocodas_from_string ⟨L ++ '.' :: R⟩
      = .ok (some ((digitsVal (L ++ R ++ List.replicate (9 - R.length) '0') : Nat) : Int)) := by
  have hdata : (⟨L ++ '.' :: R⟩ : String).data = L ++ '.' :: R := rfl
  have hsplit : splitDot (L ++ '.' :: R) = [L, R] :=
    splitDot_two (no_dot_of_all_digits hL) (no_dot_of_all_digits hR)
  have hall : (L ++ R ++ List.replicate (9 - R.length) '0').all isAsciiDigit = true := by
    rw [List.all_append, List.all_append]
    rw [hL, hR, all_digits_replicate_zero]
    rfl
  have hlength : (L ++ R ++ List.replicate (9 - R.length) '0').length = L.length + 9 := by
    simp [List.length_append, List.length_replicate]
    omega
  have hne : L ++ R ++ List.replicate (9 - R.length) '0' ≠ [] := by
    apply List.ne_nil_of_length_pos
    omega
  have hparse := pyIntParseL_digits hne hall
  unfold nanocodas_from_string
  rw [hdata, hsplit]
  simp only [hlen, if_pos, hparse]

theorem decimal_format_data (n : Nat) :
    (decimal_format (some (n : Int))).data = decimalFormatL (pyNatStr n).data := by
  have h1 : pyValStr (some (n : Int)) = pyNatStr n := by
    show (if (n : Int) < 0 then "-" ++ pyNatStr (-(n : Int)).toNat
      else pyNatStr (n : Int).toNat) = pyNatStr n
    rw [if_neg (not_lt.mpr (Int.natCast_nonneg n))]
    rw [Int.toNat_natCast]
  unfold decimal_format
  rw [h1]

theorem decimalFormatL_split (n : Nat) :
    ∃ I F : List Char,
      decimalFormatL (pyNatStr n).data = I ++ '.' :: F ∧
      I ≠ [] ∧ F.length = 9 ∧
      I.all isAsciiDigit = true ∧ F.all isAsciiDigit = true ∧
      digitsVal (I ++ F) = n := by
  set s := (pyNatStr n).data with hs
  have hdig : s.all isAsciiDigit = true := pyNatStr_all_digits n
  have hval : digitsVal s = n := pyNatStr_val n
  have hne : s ≠ [] := pyNatStr_ne_nil n
  by_cases hlen : s.length > 9
  · refine ⟨s.take (s.length - 9), s.drop (s.length - 9), ?_, ?_, ?_, ?_, ?_, ?_⟩
    · unfold decimalFormatL
      rw [if_pos hlen]
    · apply List.ne_nil_of_length_pos
      rw [List.length_take]
      omega
    · rw [List.length_drop]
      omega
    · exact List.all_eq_true.mpr fun x hx =>
        List.all_eq_true.mp hdig x (List.take_subset _ _ hx)
    · exact List.all_eq_true.mpr fun x hx =>
        List.all_eq_true.mp hdig x (List.drop_subset _ _ hx)
    · rw [List.take_append_drop, hval]
  · refine ⟨['0'], List.replicate (9 - s.length) '0' ++ s, ?_, ?_, ?_, ?_, ?_, ?_⟩
    · unfold decimalFormatL
      rw [if_neg hlen]
      rfl
    · simp
    · rw [List.length_append, List.length_replicate]
      omega
    · decide
    · rw [List.all_append, all_digits_replicate_zero, hdig]
      rfl
    · show digitsVal (List.replicate 1 '0' ++ (List.replicate (9 - s.length) '0' ++ s)) = n
      rw [digitsVal_zeros_append, digitsVal_zeros_append, hval]

/-! ## The claims -/

/-- C1 counterexample: `fromWhole(1)` and `fromNano(1000000000)` are distinct
allocations with equal `nanoUnits` (both 10^9), yet `==` — which, `Currency`
defining no `__eq__`, is object identity — is `False` between them, so `==`
does not coincide with `nanoUnits` equality and `fromWhole(1) ==
fromNano(1000000000)` fails. -/
theorem C1_counterexample :
    mkCurrency 0 (.int 1) .WHOLE = .ok ⟨0, some 1000000000⟩ ∧
    mkCurrency 1 (.int 1000000000) .NANO = .ok ⟨1, some 1000000000⟩ ∧
    (CurrencyObj.mk 0 (some 1000000000)).nanocodas
      = (CurrencyObj.mk 1 (some 1000000000)).nanocodas ∧
    currencyEq ⟨0, some 1000000000⟩ ⟨1, some 1000000000⟩ = false :=
  ⟨rfl, rfl, rfl, rfl⟩

/-- C1 (amended): `==` between Currency instances is object identity
(`Currency` defines no `__eq__`), so two instances compare equal iff they are
the same allocation; `fromWhole(1)` and `fromNano(1000000000)` both hold
`nanoUnits = 10^9`, but as distinct allocations they are never `==`. -/
theorem C1_identityEquality :
    (∀ a b : CurrencyObj, currencyEq a b = true ↔ a.objId = b.objId) ∧
    (∀ i : Nat, mkCurrency i (.int 1) .WHOLE = .ok ⟨i, some 1000000000⟩) ∧
    (∀ j : Nat, mkCurrency j (.int 1000000000) .NANO = .ok ⟨j, some 1000000000⟩) ∧
    (∀ i j : Nat, i ≠ j →
      currencyEq ⟨i, some 1000000000⟩ ⟨j, some 1000000000⟩ = false) := by
  refine ⟨fun a b => ?_, fun i => rfl, fun j => rfl, fun i j hij => ?_⟩
  · simp [currencyEq]
  · simp [currencyEq]
    exact hij

/-- C1 witness: two concrete distinct allocations holding 10^9 nanoUnits each
are not `==`. -/
theorem C1_identityEquality_witness :
    currencyEq ⟨2, some 1000000000⟩ ⟨3, some 1000000000⟩ = false :=
  C1_identityEquality.2.2.2 2 3 (by decide)

/-- C2 (code bug): the claim — every successful construction stores a whole
integer — is the intended behaviour, but `fromWhole("1.2.3")` falls through
`__nanocodas_from_string` (its `if`/`elif` has no branch for three or more
segments), so construction SUCCEEDS with `__nanocodas = None`, a non-integer
value. -/
theorem C2_fallThroughStoresNone :
    Currency_init (.str "1.2.3") .WHOLE = .ok none := rfl

/-- C3 (code bug): the claim says more than one period raises a
`FormatError`; in the code a two-period string silently succeeds with
`__nanocodas = None`, while the format exception is raised only in the
one-period case with a fractional part longer than 9 characters. -/
theorem C3_multiPeriodNoFormatError :
    Currency_init (.str "7..0") .WHOLE = .ok none ∧
    Currency_init (.str "1.2345678901") .WHOLE
      = .error (.formatException "invalid coda currency format: 1.2345678901") ∧
    (PyErr.formatException "invalid coda currency format: 1.2345678901").isFormatErrorClass
      = true :=
  ⟨rfl, rfl, rfl⟩

/-- Evaluation of `Currency.random` on two genuine Currency arguments whose
`__nanocodas` are ints: the bound check, then the identity test of line 65,
then the randint draw. -/
theorem Currency_random_some_eq (loid hiid fid : Nat) (l u draw : Int) :
    Currency_random (.currency ⟨loid, some l⟩) (.currency ⟨hiid, some u⟩) fid draw
      = if ¬ (u ≥ l) then
          .error (.invalidArgumentException
            "invalid call to Currency.random: upper_bound is not greater than lower_bound")
        else if loid == hiid then .ok ⟨⟨loid, some l⟩, false⟩
        else .ok ⟨⟨fid, some (l + draw)⟩, true⟩ := rfl

/-- C4 counterexample: two distinct instances both holding 5 nanoUnits are
equal bounds in the spec's sense, yet `Currency.random` does not shortcut —
the line-65 `==` is object identity — so the call reaches
`random.randint(0, 0)` (the random primitive IS invoked) and a fresh object
is returned. -/
theorem C4_counterexample :
    (CurrencyObj.mk 0 (some 5)).nanocodas = (CurrencyObj.mk 1 (some 5)).nanocodas ∧
    Currency_random (.currency ⟨0, some 5⟩) (.currency ⟨1, some 5⟩) 2 0
      = .ok ⟨⟨2, some 5⟩, true⟩ :=
  ⟨rfl, rfl⟩

/-- C4 (amended): for Currency bounds with `lower.nanoUnits ≤
upper.nanoUnits`: if the two bounds are the SAME instance the call returns it
without invoking the random primitive; if they are distinct instances — even
with equal `nanoUnits` — the primitive is invoked and the call returns
`lower + fromNano(draw)` for the drawn `draw`, so every draw in the closed
interval `[0, upper - lower]` yields a result between the bounds; inverted
bounds or non-Currency arguments raise an InvalidArgument-class error. -/
theorem C4_randomBetween :
    (∀ (lo hi : CurrencyObj) (l u : Int) (fid : Nat) (draw : Int),
      lo.nanocodas = some l → hi.nanocodas = some u → l ≤ u →
      ((lo.objId = hi.objId →
         Currency_random (.currency lo) (.currency hi) fid draw = .ok ⟨lo, false⟩) ∧
       (lo.objId ≠ hi.objId →
         Currency_random (.currency lo) (.currency hi) fid draw
           = .ok ⟨⟨fid, some (l + draw)⟩, true⟩ ∧
         (0 ≤ draw → draw ≤ u - l → l ≤ l + draw ∧ l + draw ≤ u)))) ∧
    (∀ (lo hi : CurrencyObj) (l u : Int) (fid : Nat) (draw : Int),
      lo.nanocodas = some l → hi.nanocodas = some u → u < l →
      Currency_random (.currency lo) (.currency hi) fid draw
        = .error (.invalidArgumentException
          "invalid call to Currency.random: upper_bound is not greater than lower_bound")) ∧
    (∀ (ty : String) (arg : RandomArg) (fid : Nat) (draw : Int),
      Currency_random (.other ty) arg fid draw
        = .error (.invalidArgumentException
          "invalid call to Currency.random: lower and upper bound must be instances of Currency")
      ∧
      Currency_random arg (.other ty) fid draw
        = .error (.invalidArgumentException
          "invalid call to Currency.random: lower and upper bound must be instances of Currency"))
      ∧
    (∀ msg : String, (PyErr.invalidArgumentException msg).isInvalidArgumentClass = true) := by
  refine ⟨?_, ?_, ?_, fun msg => rfl⟩
  · intro lo hi l u fid draw hl hu hle
    obtain ⟨loid, lon⟩ := lo
    obtain ⟨hiid, hin⟩ := hi
    dsimp only at hl hu
    subst hl
    subst hu
    rw [Currency_random_some_eq, if_neg (not_not_intro hle)]
    constructor
    · intro hid
      dsimp only at hid
      rw [if_pos (by simp [hid] : (loid == hiid) = true)]
    · intro hid
      dsimp only at hid
      rw [if_neg (by simp [hid] : ¬ (loid == hiid) = true)]
      exact ⟨rfl, fun h0 hrange => by omega⟩
  · intro lo hi l u fid draw hl hu hlt
    obtain ⟨loid, lon⟩ := lo
    obtain ⟨hiid, hin⟩ := hi
    dsimp only at hl hu
    subst hl
    subst hu
    rw [Currency_random_some_eq, if_pos (not_le.mpr hlt)]
  · intro ty arg fid draw
    constructor
    · cases arg <;> rfl
    · cases arg <;> rfl

/-- C4 witness: concrete distinct instances holding 1 and 3 nanoUnits, fresh
id 5 and draw 1: randint is invoked, the result holds 2 nanoUnits and lies
between the bounds. -/
theorem C4_randomBetween_witness :
    Currency_random (.currency ⟨0, some 1⟩) (.currency ⟨1, some 3⟩) 5 1
      = .ok ⟨⟨5, some 2⟩, true⟩ ∧
    ((0 : Int) ≤ 1 → (1 : Int) ≤ 3 - 1 → (1 : Int) ≤ 1 + 1 ∧ (1 : Int) + 1 ≤ 3) :=
  (C4_randomBetween.1 ⟨0, some 1⟩ ⟨1, some 3⟩ 1 3 5 1 rfl rfl (by decide)).2 (by decide)

/-- C5: subtraction computes `diff = a.nanoUnits - b.nanoUnits`, returns
`fromNano(diff)` when `diff ≥ 0` and raises the payload-free
`CurrencyUnderflow` — the only Underflow-class error, distinct from every
other error kind — exactly when `diff < 0`; a non-Currency operand raises a
TypeError-class exception. -/
theorem C5_subtractUnderflow :
    (∀ a b : Int, Currency_sub (some a) (.currencyVal (some b))
        = if a - b ≥ 0 then .ok (some (a - b)) else .error .currencyUnderflow) ∧
    (∀ a b : Int, Currency_sub (some a) (.currencyVal (some b)) = .error .currencyUnderflow
        ↔ a - b < 0) ∧
    (∀ (self : Option Int) (ty : String),
        Currency_sub self (.other ty)
          = .error (.typeException ("cannot subtract Currency and " ++ ty)) ∧
        (PyErr.typeException ("cannot subtract Currency and " ++ ty)).isTypeErrorClass = true) ∧
    PyErr.currencyUnderflow.isUnderflowClass = true ∧
    (∀ e : PyErr, e.isUnderflowClass = true → e = .currencyUnderflow) ∧
    (∀ e : PyErr, e.isUnderflowClass = true →
        e.isFormatErrorClass = false ∧ e.isTypeErrorClass = false ∧
        e.isInvalidArgumentClass = false) := by
  refine ⟨fun a b => rfl, fun a b => ?_, fun self ty => ⟨?_, rfl⟩, rfl, ?_, ?_⟩
  · by_cases h : a - b ≥ 0
    · constructor
      · intro he
        have : Currency_sub (some a) (.currencyVal (some b)) = .ok (some (a - b)) := by
          show (if a - b ≥ 0 then Except.ok (some (a - b))
            else Except.error PyErr.currencyUnderflow) = _
          rw [if_pos h]
        rw [this] at he
        exact absurd he (by simp)
      · intro hlt
        omega
    · constructor
      · intro _
        omega
      · intro _
        show (if a - b ≥ 0 then Except.ok (some (a - b))
          else Except.error PyErr.currencyUnderflow) = _
        rw [if_neg h]
  · cases self <;> rfl
  · intro e he
    cases e <;> simp_all [PyErr.isUnderflowClass]
  · intro e he
    cases e <;> simp_all [PyErr.isUnderflowClass, PyErr.isFormatErrorClass,
      PyErr.isTypeErrorClass, PyErr.isInvalidArgumentClass]

/-- C5 witness: the spec's own example — `fromWhole(1)` minus `fromWhole(2)`,
i.e. 10^9 - 2·10^9 nanoUnits — raises `CurrencyUnderflow`. -/
theorem C5_subtractUnderflow_witness :
    Currency_sub (some 1000000000) (.currencyVal (some 2000000000))
      = .error .currencyUnderflow :=
  (C5_subtractUnderflow.2.1 1000000000 2000000000).mpr (by decide)

/-- C6: `fromWhole` multiplies an integer argument by 10^9, while a
period-free decimal digit string is handed to `int()` unscaled — a bare
integer string passed to the whole-unit constructor is treated as an
already-nano-scaled count, unlike an actual integer argument. -/
theorem C6_bareIntegerStringAsymmetry :
    (∀ n : Int, Currency_init (.int n) .WHOLE = .ok (some (n * 1000000000))) ∧
    (∀ l : List Char, l ≠ [] → l.all isAsciiDigit = true →
      Currency_init (.str ⟨l⟩) .WHOLE = .ok (some ((digitsVal l : Nat) : Int))) := by
  refine ⟨fun n => rfl, fun l hne hd => ?_⟩
  show nanocodas_from_string ⟨l⟩ = _
  exact nanocodas_from_string_digits hne hd

/-- C6 witness: `fromWhole("5")` stores 5 nanoUnits — not 5·10^9. -/
theorem C6_bareIntegerStringAsymmetry_witness :
    Currency_init (.str ⟨['5']⟩) .WHOLE = .ok (some ((digitsVal ['5'] : Nat) : Int)) :=
  C6_bareIntegerStringAsymmetry.2 ['5'] (by decide) (by decide)

/-- C7: for a decimal string `L.R` made of digit parts, with exactly one
period and `len(R) ≤ 9`, `fromWhole("L.R").toNano()` is the integer formed by
concatenating `L`, `R` and `9 - len(R)` trailing zero digits — equivalently
`int(L)·10^9 + int(R)·10^(9-len(R))`. -/
theorem C7_fractionalParsing (L R : List Char) (hL : L.all isAsciiDigit = true)
    (hR : R.all isAsciiDigit = true) (hlen : R.length ≤ 9) :
    Currency_init (.str ⟨L ++ '.' :: R⟩) .WHOLE
      = .ok (some ((digitsVal (L ++ R ++ List.replicate (9 - R.length) '0') : Nat) : Int)) ∧
    digitsVal (L ++ R ++ List.replicate (9 - R.length) '0')
      = digitsVal L * 10 ^ 9 + digitsVal R * 10 ^ (9 - R.length) := by
  constructor
  · show nanocodas_from_string ⟨L ++ '.' :: R⟩ = _
    exact nanocodas_from_string_two hL hR hlen
  · rw [digitsVal_append, digitsVal_append, digitsVal_replicate_zero, List.length_replicate]
    have h9 : R.length + (9 - R.length) = 9 := by omega
    rw [add_zero, add_mul, mul_assoc, ← pow_add, h9]

/-- C7 witness: `fromWhole("1.5")` stores 1500000000 nanoUnits, the
concatenation of `1`, `5` and eight zeros. -/
theorem C7_fractionalParsing_witness :
    Currency_init (.str ⟨['1'] ++ '.' :: ['5']⟩) .WHOLE
      = .ok (some ((digitsVal (['1'] ++ ['5'] ++ List.replicate (9 - ['5'].length) '0') : Nat)
        : Int)) ∧
    digitsVal (['1'] ++ ['5'] ++ List.replicate (9 - ['5'].length) '0')
      = digitsVal ['1'] * 10 ^ 9 + digitsVal ['5'] * 10 ^ (9 - ['5'].length) :=
  C7_fractionalParsing ['1'] ['5'] (by decide) (by decide) (by decide)

/-- C8: `toDecimalString` on a nonnegative value (sign handling for negative
values being unspecified) is exactly the pure slicing operation the spec
describes on the decimal digit string of `nanoUnits`; its output is an
integer part, one period, and exactly 9 fractional digits — no scientific
notation, and no rounding: the emitted digits recombine to the exact nano
count.  The spec's two concrete renderings hold. -/
theorem C8_decimalFormatSlicing :
    (∀ n : Nat,
      (decimal_format (some (n : Int))).data = specToDecimalString (pyNatStr n).data ∧
      ∃ I F : List Char,
        (decimal_format (some (n : Int))).data = I ++ '.' :: F ∧
        I ≠ [] ∧ F.length = 9 ∧
        I.all isAsciiDigit = true ∧ F.all isAsciiDigit = true ∧
        digitsVal I * 10 ^ 9 + digitsVal F = n) ∧
    decimal_format (some 5000000000) = "5.000000000" ∧
    decimal_format (some 123) = "0.000000123" := by
  refine ⟨fun n => ⟨?_, ?_⟩, by decide, by decide⟩
  · rw [decimal_format_data]
    rfl
  · obtain ⟨I, F, h1, h2, h3, h4, h5, h6⟩ := decimalFormatL_split n
    refine ⟨I, F, ?_, h2, h3, h4, h5, ?_⟩
    · rw [decimal_format_data, h1]
    · rw [digitsVal_append, h3] at h6
      exact h6

/-- C9: round trip — for every nonnegative nano count `n`, rendering
`fromNano(n)` with `toDecimalString` and parsing the result back through the
whole-unit string constructor yields an instance holding `n` again. -/
theorem C9_roundTrip (n : Nat) :
    Currency_init (.str (decimal_format (some (n : Int)))) .WHOLE = .ok (some (n : Int)) := by
  obtain ⟨I, F, h1, h2, h3, h4, h5, h6⟩ := decimalFormatL_split n
  show nanocodas_from_string (decimal_format (some (n : Int))) = .ok (some (n : Int))
  have hdata : (decimal_format (some (n : Int))).data = I ++ '.' :: F := by
    rw [decimal_format_data, h1]
  have hiF : I ++ F ++ List.replicate (9 - F.length) '0' = I ++ F := by
    rw [h3]
    simp
  have hallIF : (I ++ F).all isAsciiDigit = true := by
    rw [List.all_append, h4, h5]
    rfl
  have hneIF : I ++ F ≠ [] := by
    apply List.ne_nil_of_length_pos
    rw [List.length_append]
    have := List.length_pos.mpr h2
    omega
  have hparse : pyIntParseL (I ++ F ++ List.replicate (9 - F.length) '0')
      = some ((n : Nat) : Int) := by
    rw [hiF, pyIntParseL_digits hneIF hallIF, h6]
  have hparse2 : pyIntParseL (I ++ F) = some ((n : Nat) : Int) := by
    rw [← hiF]
    exact hparse
  unfold nanocodas_from_string
  rw [hdata, splitDot_two (no_dot_of_all_digits h4) (no_dot_of_all_digits h5)]
  simp only [h3, hparse]
  norm_num
  rw [hparse2]

/-- C10: a float whose host string representation is scientific notation and
so period-free — `str(1e-07)` is `"1e-07"` — is handed as that string to the
integer parser `int()`, which raises a `ValueError`: an error belonging to
none of the four specified error classes. -/
theorem C10_scientificFloatUnclassified (s : String) (hdot : '.' ∉ s.data)
    (hparse : pyIntParseL s.data = none) :
    Currency_init (.float s) .WHOLE
      = .error (.valueError ("invalid literal for int() with base 10: " ++ String.mk s.data)) ∧
    ∀ msg : String,
      (PyErr.valueError msg).isFormatErrorClass = false ∧
      (PyErr.valueError msg).isTypeErrorClass = false ∧
      (PyErr.valueError msg).isUnderflowClass = false ∧
      (PyErr.valueError msg).isInvalidArgumentClass = false := by
  constructor
  · show nanocodas_from_string s = _
    unfold nanocodas_from_string
    rw [splitDot_no_dot hdot]
    simp [hparse]
  · intro msg
    exact ⟨rfl, rfl, rfl, rfl⟩

/-- C10 witness: `fromWhole(1e-07)` — whose host rendering is the period-free
string `"1e-07"` — fails with the unclassified `ValueError` from `int()`. -/
theorem C10_scientificFloatUnclassified_witness :
    Currency_init (.float "1e-07") .WHOLE
      = .error (.valueError ("invalid literal for int() with base 10: "
        ++ String.mk ("1e-07").data)) ∧
    ∀ msg : String,
      (PyErr.valueError msg).isFormatErrorClass = false ∧
      (PyErr.valueError msg).isTypeErrorClass = false ∧
      (PyErr.valueError msg).isUnderflowClass = false ∧
      (PyErr.valueError msg).isInvalidArgumentClass = false :=
  C10_scientificFloatUnclassified "1e-07" (by decide) (by decide)
